import Mathlib

/-!
# Verification of the text-reveal animation controller (`useAnimatedText`)

Shallow embedding of `src/components/thread/animated-text.tsx` from the
`agent-chat-ui` repository, together with a model of the particle emitter
described in the specification (whose source is not part of the repository
snapshot).

## Modelling notes

The React hook `useAnimatedText(targetText, isStreaming, options)` keeps

* `displayedText` (a `useState` string),
* `displayedLengthRef`, `lastFrameTimeRef` (number refs),
* `animationRef` (the pending `requestAnimationFrame` handle, or null),
* the force-complete `setTimeout` handle of the effect at lines 134-146.

We embed text as `List α` (the reveal unit is one code unit), timestamps as
`Nat` and the configured rate `charsPerSecond` as `Int` (JS numbers; the only
arithmetic the code performs on them is exact integer arithmetic plus one
`Math.floor((elapsed / 1000) * charsPerSecond)`, which over the reals equals
floor-division `(elapsed * charsPerSecond).fdiv 1000`).

A crucial faithfulness point: the `animate` callback produced by `useCallback`
captures `targetText` and `isStreaming` of the render that created it, and it
always re-schedules *itself* (`requestAnimationFrame(animate)` inside its own
body refers to the closure of its defining render).  The start/manage effect
(lines 112-131) only starts a new loop when `animationRef.current` is null.
Consequently a running loop keeps observing the `targetText`/`isStreaming`
values captured when the loop was started; prop updates do not reach it.  The
state therefore stores the captured pair in the `anim` field (`LoopCap`).
`charsPerSecond` and `enabled` are per-instance constants (the call sites pass
compile-time constants), so they live directly in the state and are never
updated.

Events:

* `applyUpdate st T' s' now` — the collaborator supplies new props
  `(targetText, isStreaming)`; the three effects with changed dependencies run
  in declaration order (reset effect, lines 61-67; start/manage effect,
  lines 112-131; force-complete effect, lines 134-146).  `now` is the wall
  time at which the update is committed, used for the 2000 ms deadline.
* `applyTick st t` — the pending frame callback fires with timestamp `t`
  (lines 70-107).
* `applyTimeout st` — the pending force-complete timer fires (lines 137-142).
* `applyUnmount st` — teardown: the unmount cleanup (lines 52-58) cancels the
  frame callback, and React runs the force-complete effect cleanup
  (line 144) which clears the timer.
-/

/-- The pair of props captured by the `animate` closure when the
animation loop was started (lines 70-109 of `animated-text.tsx`). -/
structure LoopCap (α : Type) where
  target : List α
  streaming : Bool
deriving DecidableEq, Repr

/-- The state of one `useAnimatedText` instance.  `displayedText`,
`displayedLength`, `lastFrameTime` mirror the hook's `useState`/refs; `anim`
is the pending frame callback together with its captured props; `timer` is
the pending force-complete timeout `(deadline, captured targetText)`;
`target`, `streaming` are the current props; `enabled`, `cps` are the
per-instance configuration (`options.enabled`, `options.charsPerSecond`). -/
structure RState (α : Type) where
  displayedText : List α
  displayedLength : Nat
  lastFrameTime : Nat
  anim : Option (LoopCap α)
  timer : Option (Nat × List α)
  target : List α
  streaming : Bool
  enabled : Bool
  cps : Int
deriving DecidableEq, Repr

/-- Initial state of a freshly created instance, before the first props are
committed: `useState("")`, refs `0`, nothing scheduled.  Mounting with props
`(T, s)` is `applyUpdate (mkState e c) T s now` (on mount all effects run;
for the pristine props `([], false)` all three effect bodies are no-ops, so
modelling mount as an update from the pristine props is exact). -/
def mkState (enabled : Bool) (cps : Int) : RState α :=
  { displayedText := []
    displayedLength := 0
    lastFrameTime := 0
    anim := none
    timer := none
    target := []
    streaming := false
    enabled := enabled
    cps := cps }

/-- Line 72-74: `if (!lastFrameTimeRef.current) lastFrameTimeRef.current = timestamp`.
The value of `lastFrameTimeRef` after the seeding line of a tick at `t`. -/
def seedTime (st : RState α) (t : Nat) : Nat :=
  if st.lastFrameTime = 0 then t else st.lastFrameTime

/-- Line 76: `elapsed = timestamp - lastFrameTimeRef.current` (after seeding). -/
def tickElapsed (st : RState α) (t : Nat) : Int :=
  (t : Int) - (seedTime st t : Int)

/-- Lines 93-96: `charsToReveal = Math.max(minCharsPerFrame, Math.floor((elapsed / 1000) * charsPerSecond))`
with `ANIMATION_CONFIG.minCharsPerFrame = 1`. -/
def charsToRevealAt (st : RState α) (t : Nat) : Int :=
  max 1 ((tickElapsed st t * st.cps).fdiv 1000)

/-- The body of `animate` (lines 70-107) when a loop with captured props
`cap` is pending, invoked with timestamp `t`. -/
def tickWith (st : RState α) (cap : LoopCap α) (t : Nat) : RState α :=
  if cap.target.length ≤ st.displayedLength then
    -- lines 81-90: caught up; stop if the captured isStreaming is false,
    -- otherwise re-schedule the same closure (poll-wait)
    if cap.streaming = true then
      { st with lastFrameTime := seedTime st t }
    else
      { st with lastFrameTime := seedTime st t, anim := none }
  else
    -- lines 93-106: reveal, then re-schedule the same closure
    { st with
        displayedLength :=
          min (st.displayedLength + (charsToRevealAt st t).toNat) cap.target.length
        displayedText :=
          cap.target.take
            (min (st.displayedLength + (charsToRevealAt st t).toNat) cap.target.length)
        lastFrameTime := t }

/-- One firing of the pending frame callback; no-op when none is pending. -/
def applyTick (st : RState α) (t : Nat) : RState α :=
  match st.anim with
  | none => st
  | some cap => tickWith st cap t

/-- Lines 61-67: the reset effect (dependency `[targetText]`), run when the
committed `targetText` differs from `oldTarget`. -/
def resetEff [DecidableEq α] (oldTarget : List α) (st : RState α) : RState α :=
  if st.target ≠ oldTarget ∧
      (st.target.length = 0 ∨ (st.target.length : Int) < (st.displayedLength : Int) - 10) then
    { st with displayedText := [], displayedLength := 0 }
  else st

/-- Lines 112-131: the start/manage effect.  With animation disabled it shows
the full text immediately; otherwise it starts a loop (capturing the current
props) only when none is pending. -/
def startEff (st : RState α) : RState α :=
  if st.enabled = false then
    { st with displayedText := st.target, displayedLength := st.target.length }
  else if (st.displayedLength < st.target.length ∨ st.streaming = true) ∧ st.anim.isNone = true then
    { st with lastFrameTime := 0, anim := some ⟨st.target, st.streaming⟩ }
  else st

/-- Lines 134-146: the force-complete effect.  Its cleanup clears the previous
timer; the body schedules a 2000 ms timer when streaming has stopped with the
reveal not caught up. -/
def finishEff (st : RState α) (now : Nat) : RState α :=
  if st.streaming = false ∧ st.displayedLength < st.target.length then
    { st with timer := some (now + 2000, st.target) }
  else
    { st with timer := none }

/-- A props update `(targetText, isStreaming) := (T', s')` committed at wall
time `now`.  If nothing changed no effect dependency changed and nothing runs;
otherwise the effects run in declaration order.  (The reset effect depends
only on `targetText`; `resetEff` tests that internally.) -/
def applyUpdate [DecidableEq α] (st : RState α) (T' : List α) (s' : Bool) (now : Nat) :
    RState α :=
  if T' = st.target ∧ s' = st.streaming then st
  else
    finishEff (startEff (resetEff st.target { st with target := T', streaming := s' })) now

/-- The pending force-complete timer fires (lines 137-142); no-op when no
timer is pending.  The timeout closure captured the `targetText` of the
render that scheduled it; because the scheduling effect's cleanup clears the
timer whenever `targetText` changes, the captured text always equals the
current props text when the timer actually fires. -/
def applyTimeout (st : RState α) : RState α :=
  match st.timer with
  | none => st
  | some (_, capT) =>
    if st.displayedLength < capT.length then
      { st with timer := none, displayedText := capT, displayedLength := capT.length }
    else
      { st with timer := none }

/-- Teardown (lines 52-58 plus the force-complete effect cleanup run on
unmount): cancel the pending frame callback and clear the pending timer. -/
def applyUnmount (st : RState α) : RState α :=
  { st with anim := none, timer := none }

/-- The observable events of one controller instance. -/
inductive Ev (α : Type) where
  | upd (T : List α) (s : Bool) (now : Nat)
  | tick (t : Nat)
  | fire
  | unmount
deriving DecidableEq, Repr

/-- One event step. -/
def step [DecidableEq α] (st : RState α) : Ev α → RState α
  | .upd T s now => applyUpdate st T s now
  | .tick t => applyTick st t
  | .fire => applyTimeout st
  | .unmount => applyUnmount st

/-- Run a sequence of events. -/
def run [DecidableEq α] (st : RState α) (evs : List (Ev α)) : RState α :=
  evs.foldl step st

/-- Run a sequence of frame callbacks. -/
def runTicks (st : RState α) (ts : List Nat) : RState α :=
  ts.foldl applyTick st

/-- The Scenario C history: `targetText` grows from `[1, 2]` to
`[1, 2, 3, 4, 5, 6, 7, 8]` while streaming, after the running loop (started
when the text was `[1, 2]`) has caught up to `[1, 2]`; then one more tick
runs. -/
def c4State : RState Nat :=
  run (mkState true 150)
    [Ev.upd [1, 2] true 0, Ev.tick 100, Ev.tick 200,
      Ev.upd [1, 2, 3, 4, 5, 6, 7, 8] true 300, Ev.tick 400]

/-- Lines 148-154: the `progress` output,
`targetText.length > 0 ? displayedLength / targetText.length : 1`. -/
def progressOf (st : RState α) : ℚ :=
  if 0 < st.target.length then (st.displayedLength : ℚ) / (st.target.length : ℚ) else 1

/-- Line 150: the `isAnimating` output. -/
def isAnimatingOf (st : RState α) : Prop :=
  st.displayedLength < st.target.length

/-! ## Particle emitter model

The specification's ParticleEmitter (§4.3) has no source under `src/`; only
the spec describes it.  Its spawn step is therefore modelled from the spec's
words. -/

/-- The randomized visual attributes of one spawn event (position, size,
lifetime, binary style tag); per the spec's design notes randomness is
injected, so the attributes are parameters of the spawn step. -/
structure PAttrs where
  posX : Nat
  posY : Nat
  size : Nat
  lifetime : Nat
  styleTag : Bool
deriving DecidableEq, Repr

/-- A live particle: unique monotonically increasing id plus its visual
attributes (spec §3, Particle). -/
structure Particle where
  id : Nat
  posX : Nat
  posY : Nat
  size : Nat
  lifetime : Nat
  styleTag : Bool
deriving DecidableEq, Repr

/-- The particle collection (ordered oldest-first) and the next fresh id. -/
structure EmitterState where
  particles : List Particle
  nextId : Nat
deriving DecidableEq, Repr

/-- Emitter state with no live particles. -/
def emptyEmitter : EmitterState :=
  { particles := [], nextId := 0 }

/-- Modelled from the spec: a freshly spawned particle carries the next
monotonically increasing id and the injected randomized attributes. -/
def newParticle (st : EmitterState) (a : PAttrs) : Particle :=
  { id := st.nextId
    posX := a.posX
    posY := a.posY
    size := a.size
    lifetime := a.lifetime
    styleTag := a.styleTag }

/-- Modelled from the spec: the ParticleEmitter's spawn step (§4.3), whose
source is not part of the repository snapshot.  "spawn one particle at a
fixed interval (150 ms) with randomized visual attributes (position, size,
lifetime, a binary style tag), capped at a configured maximum live count
(oldest evicted first on overflow)": append a particle with a fresh id and,
on overflow, drop the oldest particles from the front of the list. -/
def spawnParticle (cap : Nat) (st : EmitterState) (a : PAttrs) : EmitterState :=
  { particles :=
      (st.particles ++ [newParticle st a]).drop
        ((st.particles ++ [newParticle st a]).length - cap)
    nextId := st.nextId + 1 }

/-- A sequence of spawn events. -/
def spawnMany (cap : Nat) (st : EmitterState) (attrs : List PAttrs) : EmitterState :=
  attrs.foldl (spawnParticle cap) st

/-- Invariant of the emitter: the live particles are exactly the most recent
`min nextId cap` spawned ones, oldest first. -/
def EmitterInv (cap : Nat) (st : EmitterState) : Prop :=
  st.particles.length = min st.nextId cap ∧
  st.particles.map Particle.id
    = List.range' (st.nextId - st.particles.length) st.particles.length

/-! ## Invariants and reachability for the reveal controller -/

/-- The displayed text always has exactly `displayedLength` units.  This holds
for every reachable state, whatever the update history. -/
def TLen (st : RState α) : Prop :=
  st.displayedText.length = st.displayedLength

/-- Core coherence of a state with its current props: the revealed length is
in bounds, the displayed text is the corresponding prefix of the target, and
a running loop's captured text is a prefix of the target.  Maintained as long
as updates only extend `targetText`. -/
def CohCore (st : RState α) : Prop :=
  st.displayedLength ≤ st.target.length ∧
  st.displayedText = st.target.take st.displayedLength ∧
  (∀ cap, st.anim = some cap → cap.target <+: st.target)

/-- Full coherence: `CohCore` plus the pending timer's captured text being the
current target. -/
def Coh (st : RState α) : Prop :=
  CohCore st ∧ (∀ d capT, st.timer = some (d, capT) → capT = st.target)

/-- Reachability by arbitrary events from a start state. -/
inductive Reach [DecidableEq α] : RState α → RState α → Prop where
  | refl (s : RState α) : Reach s s
  | step {s t : RState α} (e : Ev α) (h : Reach s t) : Reach s (step t e)

/-- Reachability along histories in which every committed `targetText`
extends the previous one (append-only updates, the spec's §3 ownership rule
for `TargetText` during one message). -/
inductive ReachMono [DecidableEq α] : RState α → RState α → Prop where
  | refl (s : RState α) : ReachMono s s
  | upd {s t : RState α} (T' : List α) (s' : Bool) (now : Nat)
      (h : ReachMono s t) (hp : t.target <+: T') : ReachMono s (applyUpdate t T' s' now)
  | tick {s t : RState α} (τ : Nat) (h : ReachMono s t) : ReachMono s (applyTick t τ)
  | fire {s t : RState α} (h : ReachMono s t) : ReachMono s (applyTimeout t)
  | unmount {s t : RState α} (h : ReachMono s t) : ReachMono s (applyUnmount t)

/-! ## Basic lemmas about the operations -/

theorem take_eq_of_isPre {α : Type} {l₁ l₂ : List α} (h : l₁ <+: l₂) {n : Nat}
    (hn : n ≤ l₁.length) : l₂.take n = l₁.take n := by
  obtain ⟨t, rfl⟩ := h
  exact List.take_append_of_le_length hn

theorem one_le_charsToRevealAt {α : Type} (st : RState α) (t : Nat) :
    1 ≤ (charsToRevealAt st t).toNat := by
  have h : (1 : Int) ≤ charsToRevealAt st t := le_max_left _ _
  omega

theorem tickWith_target {α : Type} (st : RState α) (cap : LoopCap α) (t : Nat) :
    (tickWith st cap t).target = st.target := by
  unfold tickWith; split_ifs <;> rfl

theorem tickWith_timer {α : Type} (st : RState α) (cap : LoopCap α) (t : Nat) :
    (tickWith st cap t).timer = st.timer := by
  unfold tickWith; split_ifs <;> rfl

theorem tickWith_streaming {α : Type} (st : RState α) (cap : LoopCap α) (t : Nat) :
    (tickWith st cap t).streaming = st.streaming := by
  unfold tickWith; split_ifs <;> rfl

theorem tickWith_enabled {α : Type} (st : RState α) (cap : LoopCap α) (t : Nat) :
    (tickWith st cap t).enabled = st.enabled := by
  unfold tickWith; split_ifs <;> rfl

theorem tickWith_cps {α : Type} (st : RState α) (cap : LoopCap α) (t : Nat) :
    (tickWith st cap t).cps = st.cps := by
  unfold tickWith; split_ifs <;> rfl

theorem tickWith_displayedLength_mono {α : Type} (st : RState α) (cap : LoopCap α) (t : Nat) :
    st.displayedLength ≤ (tickWith st cap t).displayedLength := by
  unfold tickWith
  split_ifs with hc hs
  · exact le_rfl
  · exact le_rfl
  · exact le_min (Nat.le_add_right _ _) (le_of_not_le hc)

theorem applyTick_target {α : Type} (st : RState α) (t : Nat) :
    (applyTick st t).target = st.target := by
  unfold applyTick
  cases h : st.anim with
  | none => rfl
  | some cap => exact tickWith_target st cap t

theorem applyTick_timer {α : Type} (st : RState α) (t : Nat) :
    (applyTick st t).timer = st.timer := by
  unfold applyTick
  cases h : st.anim with
  | none => rfl
  | some cap => exact tickWith_timer st cap t

theorem applyTick_displayedLength_mono {α : Type} (st : RState α) (t : Nat) :
    st.displayedLength ≤ (applyTick st t).displayedLength := by
  unfold applyTick
  cases h : st.anim with
  | none => exact le_rfl
  | some cap => exact tickWith_displayedLength_mono st cap t

theorem runTicks_nil {α : Type} (st : RState α) : runTicks st [] = st := rfl

theorem runTicks_cons {α : Type} (st : RState α) (t : Nat) (ts : List Nat) :
    runTicks st (t :: ts) = runTicks (applyTick st t) ts := rfl

theorem runTicks_target {α : Type} (st : RState α) (ts : List Nat) :
    (runTicks st ts).target = st.target := by
  induction ts generalizing st with
  | nil => rfl
  | cons t ts ih => rw [runTicks_cons, ih, applyTick_target]

theorem runTicks_timer {α : Type} (st : RState α) (ts : List Nat) :
    (runTicks st ts).timer = st.timer := by
  induction ts generalizing st with
  | nil => rfl
  | cons t ts ih => rw [runTicks_cons, ih, applyTick_timer]

theorem runTicks_displayedLength_mono {α : Type} (st : RState α) (ts : List Nat) :
    st.displayedLength ≤ (runTicks st ts).displayedLength := by
  induction ts generalizing st with
  | nil => exact le_rfl
  | cons t ts ih =>
    rw [runTicks_cons]
    exact le_trans (applyTick_displayedLength_mono st t) (ih (applyTick st t))

/-! ## Preservation of the coherence invariants -/

theorem cohCore_tickWith {α : Type} {st : RState α} {cap : LoopCap α}
    (h : CohCore st) (hA : st.anim = some cap) (t : Nat) :
    CohCore (tickWith st cap t) := by
  obtain ⟨h1, h2, h3⟩ := h
  have hpre : cap.target <+: st.target := h3 cap hA
  unfold tickWith
  split_ifs with hc hs
  · exact ⟨h1, h2, h3⟩
  · refine ⟨h1, h2, fun c hcap => ?_⟩
    simp at hcap
  · refine ⟨?_, ?_, h3⟩
    · exact le_trans (min_le_right _ _) hpre.length_le
    · exact (take_eq_of_isPre hpre (min_le_right _ _)).symm

theorem cohCore_applyTick {α : Type} {st : RState α} (h : CohCore st) (t : Nat) :
    CohCore (applyTick st t) := by
  unfold applyTick
  cases hA : st.anim with
  | none => exact h
  | some cap => exact cohCore_tickWith h hA t

theorem coh_applyTick {α : Type} {st : RState α} (h : Coh st) (t : Nat) :
    Coh (applyTick st t) := by
  refine ⟨cohCore_applyTick h.1 t, fun d capT hT => ?_⟩
  rw [applyTick_timer] at hT
  rw [applyTick_target]
  exact h.2 d capT hT

theorem coh_runTicks {α : Type} {st : RState α} (h : Coh st) (ts : List Nat) :
    Coh (runTicks st ts) := by
  induction ts generalizing st with
  | nil => exact h
  | cons t ts ih => exact ih (coh_applyTick h t)

theorem coh_applyTimeout {α : Type} {st : RState α} (h : Coh st) :
    Coh (applyTimeout st) := by
  obtain ⟨⟨h1, h2, h3⟩, h4⟩ := h
  unfold applyTimeout
  cases hT : st.timer with
  | none => exact ⟨⟨h1, h2, h3⟩, h4⟩
  | some p =>
    obtain ⟨d, capT⟩ := p
    have hcap : capT = st.target := h4 d capT hT
    subst hcap
    dsimp only
    split_ifs with hlt
    · refine ⟨⟨le_rfl, (List.take_length _).symm, fun c hc => h3 c hc⟩, fun d' c' hc' => ?_⟩
      simp at hc'
    · refine ⟨⟨h1, h2, fun c hc => h3 c hc⟩, fun d' c' hc' => ?_⟩
      simp at hc'

theorem cohCore_resetEff {α : Type} [DecidableEq α] (old : List α) {st : RState α}
    (h : CohCore st) : CohCore (resetEff old st) := by
  obtain ⟨h1, h2, h3⟩ := h
  unfold resetEff
  split_ifs with hc
  · exact ⟨Nat.zero_le _, by simp, fun c hc' => h3 c hc'⟩
  · exact ⟨h1, h2, h3⟩

theorem cohCore_startEff {α : Type} {st : RState α} (h : CohCore st) :
    CohCore (startEff st) := by
  obtain ⟨h1, h2, h3⟩ := h
  unfold startEff
  split_ifs with hd hs
  · exact ⟨le_rfl, (List.take_length _).symm, fun c hc => h3 c hc⟩
  · refine ⟨h1, h2, fun c hc => ?_⟩
    have hcap : (⟨st.target, st.streaming⟩ : LoopCap α) = c := by simpa using hc
    rw [← hcap]
  · exact ⟨h1, h2, h3⟩

theorem coh_finishEff {α : Type} {st : RState α} (h : CohCore st) (now : Nat) :
    Coh (finishEff st now) := by
  obtain ⟨h1, h2, h3⟩ := h
  unfold finishEff
  split_ifs with hc
  · refine ⟨⟨h1, h2, fun c hc' => h3 c hc'⟩, fun d c hc' => ?_⟩
    simp only [Option.some.injEq, Prod.mk.injEq] at hc'
    exact hc'.2.symm
  · refine ⟨⟨h1, h2, fun c hc' => h3 c hc'⟩, fun d c hc' => ?_⟩
    simp at hc'

theorem cohCore_swap {α : Type} {st : RState α} {T' : List α} {s' : Bool}
    (h : Coh st) (hp : st.target <+: T') :
    CohCore { st with target := T', streaming := s' } := by
  obtain ⟨⟨h1, h2, h3⟩, _⟩ := h
  refine ⟨le_trans h1 hp.length_le, ?_, fun c hc => (h3 c hc).trans hp⟩
  show st.displayedText = T'.take st.displayedLength
  rw [h2]
  exact (take_eq_of_isPre hp h1).symm

theorem coh_applyUpdate {α : Type} [DecidableEq α] {st : RState α} {T' : List α}
    {s' : Bool} {now : Nat} (h : Coh st) (hp : st.target <+: T') :
    Coh (applyUpdate st T' s' now) := by
  unfold applyUpdate
  split_ifs with hsame
  · exact h
  · exact coh_finishEff (cohCore_startEff (cohCore_resetEff _ (cohCore_swap h hp))) now

theorem coh_applyUnmount {α : Type} {st : RState α} (h : Coh st) :
    Coh (applyUnmount st) := by
  obtain ⟨⟨h1, h2, h3⟩, _⟩ := h
  refine ⟨⟨h1, h2, fun c hc => ?_⟩, fun d c hc => ?_⟩ <;> simp [applyUnmount] at hc

theorem coh_mkState {α : Type} (e : Bool) (c : Int) : Coh (mkState e c : RState α) := by
  refine ⟨⟨le_rfl, rfl, fun cap hc => ?_⟩, fun d capT hc => ?_⟩ <;> simp [mkState] at hc

theorem coh_of_reachMono {α : Type} [DecidableEq α] {s₀ s : RState α} (h0 : Coh s₀)
    (h : ReachMono s₀ s) : Coh s := by
  induction h with
  | refl => exact h0
  | upd T' s' now h hp ih => exact coh_applyUpdate ih hp
  | tick τ h ih => exact coh_applyTick ih τ
  | fire h ih => exact coh_applyTimeout ih
  | unmount h ih => exact coh_applyUnmount ih

/-! ## The displayed text always has the displayed length -/

theorem tlen_tickWith {α : Type} {st : RState α} (h : TLen st) (cap : LoopCap α) (t : Nat) :
    TLen (tickWith st cap t) := by
  unfold TLen tickWith
  split_ifs with hc hs
  · exact h
  · exact h
  · show (cap.target.take _).length = _
    simp [List.length_take]

theorem tlen_applyTick {α : Type} {st : RState α} (h : TLen st) (t : Nat) :
    TLen (applyTick st t) := by
  unfold applyTick
  cases hA : st.anim with
  | none => exact h
  | some cap => exact tlen_tickWith h cap t

theorem tlen_step {α : Type} [DecidableEq α] {st : RState α} (h : TLen st) (e : Ev α) :
    TLen (step st e) := by
  cases e with
  | upd T s now =>
    show TLen (applyUpdate st T s now)
    unfold applyUpdate resetEff startEff finishEff
    split_ifs <;> first | exact h | rfl
  | tick t => exact tlen_applyTick h t
  | fire =>
    show TLen (applyTimeout st)
    unfold applyTimeout
    cases hT : st.timer with
    | none => exact h
    | some p =>
      obtain ⟨d, capT⟩ := p
      dsimp only
      split_ifs with hlt
      · rfl
      · exact h
  | unmount => exact h

theorem tlen_of_reach {α : Type} [DecidableEq α] {s₀ s : RState α} (h0 : TLen s₀)
    (h : Reach s₀ s) : TLen s := by
  induction h with
  | refl => exact h0
  | step e h ih => exact tlen_step ih e

/-! ## `enabled` and `cps` are never mutated -/

theorem enabled_step {α : Type} [DecidableEq α] (st : RState α) (e : Ev α) :
    (step st e).enabled = st.enabled := by
  cases e with
  | upd T s now =>
    show (applyUpdate st T s now).enabled = st.enabled
    unfold applyUpdate resetEff startEff finishEff
    split_ifs <;> rfl
  | tick t =>
    show (applyTick st t).enabled = st.enabled
    unfold applyTick
    cases hA : st.anim with
    | none => rfl
    | some cap => exact tickWith_enabled st cap t
  | fire =>
    show (applyTimeout st).enabled = st.enabled
    unfold applyTimeout
    cases hT : st.timer with
    | none => rfl
    | some p =>
      obtain ⟨d, capT⟩ := p
      dsimp only
      split_ifs <;> rfl
  | unmount => rfl

theorem enabled_of_reach {α : Type} [DecidableEq α] {s₀ s : RState α}
    (h : Reach s₀ s) : s.enabled = s₀.enabled := by
  induction h with
  | refl => rfl
  | step e h ih => rw [enabled_step, ih]

/-! ## Characterizations of one update -/

theorem applyUpdate_target {α : Type} [DecidableEq α] (st : RState α) (T' : List α)
    (s' : Bool) (now : Nat) : (applyUpdate st T' s' now).target = T' := by
  unfold applyUpdate resetEff startEff finishEff
  split_ifs with h <;> first | exact h.1.symm | rfl

theorem applyUpdate_streaming {α : Type} [DecidableEq α] (st : RState α) (T' : List α)
    (s' : Bool) (now : Nat) : (applyUpdate st T' s' now).streaming = s' := by
  unfold applyUpdate resetEff startEff finishEff
  split_ifs with h <;> first | exact h.2.symm | rfl

theorem applyUpdate_timer_of_stream_end {α : Type} [DecidableEq α] {st : RState α}
    (T : List α) (now : Nat) (hs : st.streaming = true) :
    (applyUpdate st T false now).timer
      = if (applyUpdate st T false now).displayedLength < T.length
        then some (now + 2000, T) else none := by
  have hch : ¬(T = st.target ∧ false = st.streaming) := by
    rintro ⟨-, h⟩; rw [hs] at h; exact Bool.false_ne_true h
  rw [applyUpdate, if_neg hch]
  unfold finishEff
  have hstream : (startEff (resetEff st.target { st with target := T, streaming := false })).streaming
      = false := by
    unfold startEff resetEff; split_ifs <;> rfl
  have htgt : (startEff (resetEff st.target { st with target := T, streaming := false })).target
      = T := by
    unfold startEff resetEff; split_ifs <;> rfl
  rw [hstream, htgt]
  split_ifs with h1 h2 h2
  · rfl
  · exact absurd h1.2 h2
  · exact absurd ⟨rfl, h2⟩ h1
  · rfl

theorem applyTimeout_of_none {α : Type} {st : RState α} (h : st.timer = none) :
    applyTimeout st = st := by
  unfold applyTimeout; rw [h]

theorem applyTimeout_complete {α : Type} {st : RState α} {d : Nat} {T : List α}
    (hc : Coh st) (htgt : st.target = T) (htim : st.timer = some (d, T)) :
    (applyTimeout st).displayedLength = T.length ∧
    (applyTimeout st).displayedText = T := by
  obtain ⟨⟨h1, h2, h3⟩, h4⟩ := hc
  unfold applyTimeout
  rw [htim]
  dsimp only
  split_ifs with hlt
  · exact ⟨rfl, rfl⟩
  · have heq : st.displayedLength = T.length := by
      rw [htgt] at h1; omega
    refine ⟨heq, ?_⟩
    show st.displayedText = T
    rw [h2, htgt, heq, List.take_length]

/-- With animation enabled, an update only changes the displayed state
through the reset effect: the pair `(displayedLength, displayedText)` is
zeroed exactly when the reset condition of lines 62-66 holds, and is
untouched otherwise. -/
theorem applyUpdate_displayed_char {α : Type} [DecidableEq α] {st : RState α}
    (T' : List α) (s' : Bool) (now : Nat) (he : st.enabled = true) :
    ((applyUpdate st T' s' now).displayedLength, (applyUpdate st T' s' now).displayedText)
      = if T' ≠ st.target ∧
            (T'.length = 0 ∨ (T'.length : Int) < (st.displayedLength : Int) - 10)
        then (0, ([] : List α))
        else (st.displayedLength, st.displayedText) := by
  by_cases hch : T' = st.target ∧ s' = st.streaming
  · rw [applyUpdate, if_pos hch]
    rw [if_neg (fun h => h.1 hch.1)]
  · rw [applyUpdate, if_neg hch]
    unfold resetEff startEff finishEff
    have hne : st.enabled ≠ false := by simp [he]
    split_ifs <;> rfl

/-! ## Tick behaviour characterizations -/

theorem applyTick_advance {α : Type} {st : RState α} {cap : LoopCap α}
    (hA : st.anim = some cap) (hlt : st.displayedLength < cap.target.length) (t : Nat) :
    applyTick st t
      = { st with
          displayedLength :=
            min (st.displayedLength + (charsToRevealAt st t).toNat) cap.target.length
          displayedText :=
            cap.target.take
              (min (st.displayedLength + (charsToRevealAt st t).toNat) cap.target.length)
          lastFrameTime := t } := by
  unfold applyTick
  rw [hA]
  dsimp only
  unfold tickWith
  rw [if_neg (not_le.mpr hlt), hA]

theorem applyTick_poll {α : Type} {st : RState α} {cap : LoopCap α}
    (hA : st.anim = some cap) (hs : cap.streaming = true)
    (hc : cap.target.length ≤ st.displayedLength) (t : Nat) :
    applyTick st t = { st with lastFrameTime := seedTime st t } := by
  unfold applyTick
  rw [hA]
  dsimp only
  unfold tickWith
  rw [if_pos hc, if_pos hs, hA]

theorem runTicks_poll {α : Type} (st : RState α) (cap : LoopCap α)
    (hA : st.anim = some cap) (hs : cap.streaming = true)
    (hc : cap.target.length ≤ st.displayedLength) (ts : List Nat) :
    (runTicks st ts).displayedLength = st.displayedLength ∧
    (runTicks st ts).displayedText = st.displayedText := by
  induction ts generalizing st with
  | nil => exact ⟨rfl, rfl⟩
  | cons t ts ih =>
    rw [runTicks_cons, applyTick_poll hA hs hc]
    exact ih _ hA hc

theorem charsToRevealAt_of_seeded {α : Type} {st : RState α} {t : Nat}
    (h0 : st.lastFrameTime = 0) : (charsToRevealAt st t).toNat = 1 := by
  unfold charsToRevealAt tickElapsed seedTime
  rw [if_pos h0]
  simp

theorem charsToRevealAt_of_nonpos {α : Type} {st : RState α} {t : Nat}
    (hts : st.lastFrameTime ≤ t) (hcps : st.cps ≤ 0) :
    (charsToRevealAt st t).toNat = 1 := by
  unfold charsToRevealAt tickElapsed seedTime
  split_ifs with h0
  · simp
  · have hnn : (0 : Int) ≤ (t : Int) - (st.lastFrameTime : Int) := by
      omega
    have hmul : ((t : Int) - (st.lastFrameTime : Int)) * st.cps ≤ 0 :=
      mul_nonpos_of_nonneg_of_nonpos hnn hcps
    rw [Int.fdiv_eq_ediv _ (by omega : (0 : Int) ≤ 1000)]
    omega

/-! ## Particle emitter invariant -/

theorem emitterInv_empty (cap : Nat) : EmitterInv cap emptyEmitter := by
  constructor <;> simp [emptyEmitter, EmitterInv]

theorem emitterInv_spawn (cap : Nat) {st : EmitterState} (h : EmitterInv cap st)
    (a : PAttrs) : EmitterInv cap (spawnParticle cap st a) := by
  obtain ⟨h1, h2⟩ := h
  have hmn : st.particles.length ≤ st.nextId := by omega
  have hmc : st.particles.length ≤ cap := by omega
  have hmap : (st.particles ++ [newParticle st a]).map Particle.id
      = List.range' (st.nextId - st.particles.length) (st.particles.length + 1) := by
    rw [List.map_append, h2, List.range'_1_concat]
    have heq : st.nextId - st.particles.length + st.particles.length = st.nextId := by omega
    rw [heq]
    rfl
  unfold spawnParticle EmitterInv
  dsimp only
  rw [List.length_drop, List.length_append, List.map_drop, hmap]
  simp only [List.length_singleton]
  refine ⟨by omega, ?_⟩
  by_cases hc : st.particles.length + 1 ≤ cap
  · have h0 : st.particles.length + 1 - cap = 0 := by omega
    rw [h0, List.drop_zero, Nat.sub_zero]
    have heq2 : st.nextId + 1 - (st.particles.length + 1) = st.nextId - st.particles.length := by
      omega
    rw [heq2]
  · have hk : st.particles.length + 1 - cap = 1 := by omega
    rw [hk, List.range'_succ, List.drop_one, List.tail_cons, Nat.add_sub_cancel]
    have heq2 : st.nextId + 1 - st.particles.length = st.nextId - st.particles.length + 1 := by
      omega
    rw [heq2]

theorem emitterInv_spawnMany (cap : Nat) {st : EmitterState} (h : EmitterInv cap st)
    (attrs : List PAttrs) : EmitterInv cap (spawnMany cap st attrs) := by
  induction attrs generalizing st with
  | nil => exact h
  | cons a attrs ih => exact ih (emitterInv_spawn cap h a)

theorem spawnMany_nextId (cap : Nat) (st : EmitterState) (attrs : List PAttrs) :
    (spawnMany cap st attrs).nextId = st.nextId + attrs.length := by
  induction attrs generalizing st with
  | nil => rfl
  | cons a attrs ih =>
    show (spawnMany cap (spawnParticle cap st a) attrs).nextId = _
    rw [ih]
    show st.nextId + 1 + attrs.length = _
    simp [List.length_cons]
    omega

/-! ## Completion machinery shared by the termination claim -/

theorem completion_after_ticks {α : Type} {s0 : RState α} {T : List α}
    (hc0 : Coh s0) (htgt0 : s0.target = T)
    (hfull : s0.displayedLength = T.length ∨ s0.timer ≠ none) (ts : List Nat) :
    (applyTimeout (runTicks s0 ts)).displayedLength = T.length ∧
    (applyTimeout (runTicks s0 ts)).displayedText = T := by
  have hcf : Coh (runTicks s0 ts) := coh_runTicks hc0 ts
  have htgtf : (runTicks s0 ts).target = T := by rw [runTicks_target, htgt0]
  have htimf : (runTicks s0 ts).timer = s0.timer := runTicks_timer s0 ts
  have hmono : s0.displayedLength ≤ (runTicks s0 ts).displayedLength :=
    runTicks_displayedLength_mono s0 ts
  have hdlf : (runTicks s0 ts).displayedLength ≤ T.length := by
    have h := hcf.1.1
    rw [htgtf] at h
    exact h
  cases htim : s0.timer with
  | none =>
    have hdl0 : s0.displayedLength = T.length := by
      rcases hfull with h | h
      · exact h
      · exact absurd htim h
    have hnone : applyTimeout (runTicks s0 ts) = runTicks s0 ts :=
      applyTimeout_of_none (htimf.trans htim)
    have hdleq : (runTicks s0 ts).displayedLength = T.length := by omega
    refine ⟨by rw [hnone]; exact hdleq, ?_⟩
    rw [hnone]
    have htext := hcf.1.2.1
    rw [htgtf, hdleq] at htext
    rw [htext, List.take_length]
  | some p =>
    obtain ⟨d, capT⟩ := p
    have hcap : capT = T := by
      have h := hc0.2 d capT htim
      rw [htgt0] at h
      exact h
    subst hcap
    exact applyTimeout_complete hcf htgtf (htimf.trans htim)

/-! ## The claims -/

/-- C1 counterexample: starting from a fresh enabled instance, commit an
11-unit `targetText` while streaming, let two ticks reveal all 11 units, then
commit a 5-unit `targetText` (a shrink of 6 ≤ 10 units, so the reset rule of
lines 62-66 does not fire).  The state then has
`revealedLength = 11 > 5 = len(targetText)`: the frozen invariant is false
across updates in which `targetText` shrinks. -/
theorem C1_counterexample :
    (run (mkState true 150 : RState Nat)
        [Ev.upd [0, 1, 2, 3, 4, 5, 6, 7, 8, 9, 10] true 0, Ev.tick 100, Ev.tick 200,
          Ev.upd [0, 1, 2, 3, 4] true 300]).target.length
      < (run (mkState true 150 : RState Nat)
        [Ev.upd [0, 1, 2, 3, 4, 5, 6, 7, 8, 9, 10] true 0, Ev.tick 100, Ev.tick 200,
          Ev.upd [0, 1, 2, 3, 4] true 300]).displayedLength := by
  decide

/-- C1 (amended): along every history whose updates only ever extend
`targetText` (append-only growth, arbitrary ticks, timer firings and
teardowns interleaved), `0 ≤ revealedLength ≤ len(targetText)` holds in every
reachable state; an update that shrinks `targetText` while staying within the
10-unit slack instead leaves `revealedLength > len(targetText)`
(`C1_counterexample`). -/
theorem C1_revealed_length_bounded {α : Type} [DecidableEq α] (e : Bool) (c : Int)
    {s : RState α} (hr : ReachMono (mkState e c) s) :
    0 ≤ (s.displayedLength : Int) ∧ s.displayedLength ≤ s.target.length :=
  ⟨Int.natCast_nonneg _, (coh_of_reachMono (coh_mkState e c) hr).1.1⟩

/-- Witness for C1: the bound evaluated on the concrete reachable state after
committing `[0, 1, 2]` while streaming. -/
theorem C1_revealed_length_bounded_witness :
    ReachMono (mkState true 150 : RState Nat)
        (applyUpdate (mkState true 150) [0, 1, 2] true 5) ∧
    (0 ≤ ((applyUpdate (mkState true 150 : RState Nat) [0, 1, 2] true 5).displayedLength : Int) ∧
      (applyUpdate (mkState true 150 : RState Nat) [0, 1, 2] true 5).displayedLength
        ≤ (applyUpdate (mkState true 150 : RState Nat) [0, 1, 2] true 5).target.length) :=
  ⟨ReachMono.upd [0, 1, 2] true 5 (ReachMono.refl _) ⟨[0, 1, 2], rfl⟩,
    C1_revealed_length_bounded true 150
      (ReachMono.upd [0, 1, 2] true 5 (ReachMono.refl _) ⟨[0, 1, 2], rfl⟩)⟩

/-- C2: for every configuration and along any append-only history, once
`isStreaming` becomes false (committed at wall time `t0` with final text
`T`), either the reveal is already complete or the force-complete timer of
lines 134-146 is pending with deadline exactly `t0 + 2000`; and whatever
frame ticks run before that timer fires, the state after the firing has
`revealedLength = len(T)` and displays the full text.  So within 2000 ms of
simulated time after streaming ends the full text is shown, regardless of
`charsPerSecond`. -/
theorem C2_bounded_termination {α : Type} [DecidableEq α] (e : Bool) (c : Int)
    {s : RState α} (T : List α) (t0 : Nat) (ts : List Nat)
    (hr : ReachMono (mkState e c) s) (hs : s.streaming = true) (hp : s.target <+: T) :
    (applyTimeout (runTicks (applyUpdate s T false t0) ts)).displayedLength = T.length ∧
    (applyTimeout (runTicks (applyUpdate s T false t0) ts)).displayedText = T ∧
    ((applyUpdate s T false t0).displayedLength = T.length ∨
      (applyUpdate s T false t0).timer = some (t0 + 2000, T)) := by
  have hcs : Coh s := coh_of_reachMono (coh_mkState e c) hr
  have hc0 : Coh (applyUpdate s T false t0) := coh_applyUpdate hcs hp
  have htgt0 : (applyUpdate s T false t0).target = T := applyUpdate_target s T false t0
  have htimc := applyUpdate_timer_of_stream_end T t0 hs
  by_cases hd : (applyUpdate s T false t0).displayedLength < T.length
  · have htim : (applyUpdate s T false t0).timer = some (t0 + 2000, T) := by
      rw [htimc, if_pos hd]
    obtain ⟨h1, h2⟩ := completion_after_ticks hc0 htgt0
      (Or.inr (by rw [htim]; exact Option.some_ne_none _)) ts
    exact ⟨h1, h2, Or.inr htim⟩
  · have hdl0 : (applyUpdate s T false t0).displayedLength = T.length := by
      have h := hc0.1.1
      rw [htgt0] at h
      omega
    obtain ⟨h1, h2⟩ := completion_after_ticks hc0 htgt0 (Or.inl hdl0) ts
    exact ⟨h1, h2, Or.inl hdl0⟩

/-- Witness for C2: `charsPerSecond = 1`, text `[7]` committed while
streaming, stream ends at `t0 = 1000` with final text `[7, 8]`; a single tick
at 1100 then the timer firing at its 3000 ms deadline shows the full text. -/
theorem C2_bounded_termination_witness :
    (applyUpdate (mkState true 1 : RState Nat) [7] true 0).streaming = true ∧
    (applyUpdate (mkState true 1 : RState Nat) [7] true 0).target <+: [7, 8] ∧
    ((applyTimeout (runTicks
          (applyUpdate (applyUpdate (mkState true 1 : RState Nat) [7] true 0) [7, 8] false 1000)
          [1100])).displayedLength = 2 ∧
      (applyTimeout (runTicks
          (applyUpdate (applyUpdate (mkState true 1 : RState Nat) [7] true 0) [7, 8] false 1000)
          [1100])).displayedText = [7, 8] ∧
      ((applyUpdate (applyUpdate (mkState true 1 : RState Nat) [7] true 0)
          [7, 8] false 1000).displayedLength = 2 ∨
        (applyUpdate (applyUpdate (mkState true 1 : RState Nat) [7] true 0)
          [7, 8] false 1000).timer = some (3000, [7, 8]))) := by
  refine ⟨by decide, ⟨[8], by decide⟩, ?_⟩
  exact C2_bounded_termination true 1 [7, 8] 1000 [1100]
    (ReachMono.upd [7] true 0 (ReachMono.refl _) ⟨[7], rfl⟩)
    (by decide) ⟨[8], by decide⟩

/-- C3 counterexample: fresh instance, commit `[0, 1, 2, 3, 4]` with
streaming already off (the start effect starts the loop, `lastFrameTime = 0`).
The first tick, at `t = 100`, records `lastTickTimestamp = 100` but also
reveals one character (`displayedLength = 1 ≠ 0`): the frozen claim's
"perform no reveal this tick" is false — `animate` has no early return after
seeding, and `charsToReveal = max(1, floor(0)) = 1`. -/
theorem C3_counterexample :
    (run (mkState true 150 : RState Nat)
        [Ev.upd [0, 1, 2, 3, 4] false 0, Ev.tick 100]).lastFrameTime = 100 ∧
    (run (mkState true 150 : RState Nat)
        [Ev.upd [0, 1, 2, 3, 4] false 0, Ev.tick 100]).displayedLength = 1 := by
  decide

/-- C3 (amended): on the first tick after a (re)start (`lastFrameTime = 0`)
with the reveal not caught up, the controller records `lastTickTimestamp = t`
and, since `elapsed = 0` makes the time-based term zero, the
`minCharsPerFrame = 1` floor applies: exactly one character is revealed
(capped at the remaining text) rather than none; time-based advancement
starts from the second tick. -/
theorem C3_first_tick_seeds_and_reveals_one {α : Type} (st : RState α)
    (cap : LoopCap α) (t : Nat) (hA : st.anim = some cap)
    (h0 : st.lastFrameTime = 0) (hlt : st.displayedLength < cap.target.length) :
    (applyTick st t).lastFrameTime = t ∧
    (applyTick st t).displayedLength = min (st.displayedLength + 1) cap.target.length := by
  rw [applyTick_advance hA hlt t]
  refine ⟨rfl, ?_⟩
  show min (st.displayedLength + (charsToRevealAt st t).toNat) cap.target.length = _
  rw [charsToRevealAt_of_seeded h0]

/-- Witness for C3 (amended): the restart state and its first tick at 100. -/
theorem C3_first_tick_seeds_and_reveals_one_witness :
    (applyUpdate (mkState true 150 : RState Nat) [0, 1, 2, 3, 4] false 0).anim
        = some ⟨[0, 1, 2, 3, 4], false⟩ ∧
    (applyUpdate (mkState true 150 : RState Nat) [0, 1, 2, 3, 4] false 0).lastFrameTime = 0 ∧
    (applyUpdate (mkState true 150 : RState Nat) [0, 1, 2, 3, 4] false 0).displayedLength < 5 ∧
    ((applyTick (applyUpdate (mkState true 150 : RState Nat) [0, 1, 2, 3, 4] false 0)
        100).lastFrameTime = 100 ∧
      (applyTick (applyUpdate (mkState true 150 : RState Nat) [0, 1, 2, 3, 4] false 0)
        100).displayedLength
        = min ((applyUpdate (mkState true 150 : RState Nat)
            [0, 1, 2, 3, 4] false 0).displayedLength + 1) 5) := by
  refine ⟨by decide, by decide, by decide, ?_⟩
  exact C3_first_tick_seeds_and_reveals_one
    (applyUpdate (mkState true 150 : RState Nat) [0, 1, 2, 3, 4] false 0)
    ⟨[0, 1, 2, 3, 4], false⟩ 100 (by decide) (by decide) (by decide)

/-- C4 (code bug): in Scenario C the spec expects the appended suffix to be
revealed at the nominal rate from the tick following the growth.  In the code
the pending `requestAnimationFrame` callback is the closure that captured
`targetText = "Hi"` and `isStreaming = true` when the loop started; the
start/manage effect does not restart a running loop, so the tick after the
growth (and every later tick) takes the caught-up poll branch of lines 81-90
against the stale text and reveals nothing: `displayedLength` stays 2 and the
suffix is only ever shown by the 2000 ms force-complete timer. -/
theorem C4_stale_loop_never_reveals_growth :
    c4State.target = [1, 2, 3, 4, 5, 6, 7, 8] ∧
    c4State.displayedLength = 2 ∧
    c4State.displayedText = [1, 2] ∧
    ∀ ts : List Nat,
      (runTicks c4State ts).displayedLength = 2 ∧
      (runTicks c4State ts).displayedText = [1, 2] := by
  refine ⟨by decide, by decide, by decide, fun ts => ?_⟩
  have h := runTicks_poll c4State ⟨[1, 2], true⟩ (by decide) rfl (by decide) ts
  exact ⟨h.1.trans (by decide), h.2.trans (by decide)⟩

/-- C5: with animation enabled, an update supplying a new `targetText` whose
length is 0, or more than 10 units below the current `revealedLength`, is a
new-message boundary: `revealedLength` becomes 0 and `displayedText` becomes
empty; every other update leaves both exactly unchanged. -/
theorem C5_reset_rule {α : Type} [DecidableEq α] {st : RState α} (T' : List α)
    (s' : Bool) (now : Nat) (he : st.enabled = true) :
    ((T' ≠ st.target ∧
        (T'.length = 0 ∨ (T'.length : Int) < (st.displayedLength : Int) - 10)) →
      (applyUpdate st T' s' now).displayedLength = 0 ∧
      (applyUpdate st T' s' now).displayedText = []) ∧
    (¬(T' ≠ st.target ∧
        (T'.length = 0 ∨ (T'.length : Int) < (st.displayedLength : Int) - 10)) →
      (applyUpdate st T' s' now).displayedLength = st.displayedLength ∧
      (applyUpdate st T' s' now).displayedText = st.displayedText) := by
  have h := applyUpdate_displayed_char T' s' now he
  constructor
  · intro hc
    rw [if_pos hc] at h
    exact ⟨congrArg Prod.fst h, congrArg Prod.snd h⟩
  · intro hc
    rw [if_neg hc] at h
    exact ⟨congrArg Prod.fst h, congrArg Prod.snd h⟩

/-- Witness for C5: after one character of `[0, 1, 2, 3, 4]` has been
revealed, feeding the empty text resets, and feeding the same text again does
not. -/
theorem C5_reset_rule_witness :
    (run (mkState true 150 : RState Nat)
        [Ev.upd [0, 1, 2, 3, 4] false 0, Ev.tick 100]).enabled = true ∧
    ((([] : List Nat) ≠ (run (mkState true 150 : RState Nat)
          [Ev.upd [0, 1, 2, 3, 4] false 0, Ev.tick 100]).target ∧
        (([] : List Nat).length = 0 ∨
          (([] : List Nat).length : Int)
            < ((run (mkState true 150 : RState Nat)
                [Ev.upd [0, 1, 2, 3, 4] false 0, Ev.tick 100]).displayedLength : Int) - 10)) →
      (applyUpdate (run (mkState true 150 : RState Nat)
          [Ev.upd [0, 1, 2, 3, 4] false 0, Ev.tick 100]) [] false 500).displayedLength = 0 ∧
      (applyUpdate (run (mkState true 150 : RState Nat)
          [Ev.upd [0, 1, 2, 3, 4] false 0, Ev.tick 100]) [] false 500).displayedText = []) ∧
    (¬(([] : List Nat) ≠ (run (mkState true 150 : RState Nat)
          [Ev.upd [0, 1, 2, 3, 4] false 0, Ev.tick 100]).target ∧
        (([] : List Nat).length = 0 ∨
          (([] : List Nat).length : Int)
            < ((run (mkState true 150 : RState Nat)
                [Ev.upd [0, 1, 2, 3, 4] false 0, Ev.tick 100]).displayedLength : Int) - 10)) →
      (applyUpdate (run (mkState true 150 : RState Nat)
          [Ev.upd [0, 1, 2, 3, 4] false 0, Ev.tick 100]) [] false 500).displayedLength
        = (run (mkState true 150 : RState Nat)
          [Ev.upd [0, 1, 2, 3, 4] false 0, Ev.tick 100]).displayedLength ∧
      (applyUpdate (run (mkState true 150 : RState Nat)
          [Ev.upd [0, 1, 2, 3, 4] false 0, Ev.tick 100]) [] false 500).displayedText
        = (run (mkState true 150 : RState Nat)
          [Ev.upd [0, 1, 2, 3, 4] false 0, Ev.tick 100]).displayedText) :=
  ⟨by decide, C5_reset_rule [] false 500 (by decide)⟩

/-- C6: on every tick that advances (the revealed length is below the length
of the loop's captured text), the new revealed length is
`min(revealedLength + max(minCharsPerTick, floor(elapsed/1000 * charsPerSecond)), targetLength)`
with `minCharsPerTick = minCharsPerFrame = 1`; every advancing tick therefore
strictly advances (the reveal never stalls), and with a zero or negative
`charsPerSecond` exactly the `minCharsPerTick` floor applies. -/
theorem C6_min_chars_per_tick {α : Type} (st : RState α) (cap : LoopCap α) (t : Nat)
    (hA : st.anim = some cap) (hlt : st.displayedLength < cap.target.length)
    (hts : st.lastFrameTime ≤ t) :
    (applyTick st t).displayedLength
      = min (st.displayedLength
            + (max 1 ((tickElapsed st t * st.cps).fdiv 1000)).toNat) cap.target.length ∧
    st.displayedLength < (applyTick st t).displayedLength ∧
    (st.cps ≤ 0 →
      (applyTick st t).displayedLength = min (st.displayedLength + 1) cap.target.length) := by
  rw [applyTick_advance hA hlt t]
  have h1 : 1 ≤ (charsToRevealAt st t).toNat := one_le_charsToRevealAt st t
  refine ⟨rfl, ?_, fun hcps => ?_⟩
  · show st.displayedLength
      < min (st.displayedLength + (charsToRevealAt st t).toNat) cap.target.length
    omega
  · show min (st.displayedLength + (charsToRevealAt st t).toNat) cap.target.length
      = min (st.displayedLength + 1) cap.target.length
    rw [charsToRevealAt_of_nonpos hts hcps]

/-- Witness for C6: `charsPerSecond = 0`, loop freshly started on
`[5, 6, 7]`; the tick at 50 reveals exactly one character. -/
theorem C6_min_chars_per_tick_witness :
    (applyUpdate (mkState true 0 : RState Nat) [5, 6, 7] false 0).anim
        = some ⟨[5, 6, 7], false⟩ ∧
    (applyUpdate (mkState true 0 : RState Nat) [5, 6, 7] false 0).displayedLength < 3 ∧
    (applyUpdate (mkState true 0 : RState Nat) [5, 6, 7] false 0).lastFrameTime ≤ 50 ∧
    ((applyTick (applyUpdate (mkState true 0 : RState Nat) [5, 6, 7] false 0)
        50).displayedLength
      = min ((applyUpdate (mkState true 0 : RState Nat)
          [5, 6, 7] false 0).displayedLength + 1) 3) := by
  refine ⟨by decide, by decide, by decide, ?_⟩
  exact (C6_min_chars_per_tick
    (applyUpdate (mkState true 0 : RState Nat) [5, 6, 7] false 0)
    ⟨[5, 6, 7], false⟩ 50 (by decide) (by decide) (by decide)).2.2 (by decide)

theorem run_cons {α : Type} [DecidableEq α] (st : RState α) (e : Ev α) (evs : List (Ev α)) :
    run st (e :: evs) = run (step st e) evs := rfl

theorem applyUpdate_disabled {α : Type} [DecidableEq α] {st : RState α}
    (he : st.enabled = false) (T' : List α) (s' : Bool) (now : Nat)
    (h1 : st.displayedText = st.target) (h2 : st.displayedLength = st.target.length)
    (h3 : st.anim = none) (h4 : st.timer = none) :
    (applyUpdate st T' s' now).displayedText = (applyUpdate st T' s' now).target ∧
    (applyUpdate st T' s' now).displayedLength = (applyUpdate st T' s' now).target.length ∧
    (applyUpdate st T' s' now).anim = none ∧
    (applyUpdate st T' s' now).timer = none := by
  by_cases hch : T' = st.target ∧ s' = st.streaming
  · rw [applyUpdate, if_pos hch]
    exact ⟨h1, h2, h3, h4⟩
  · rw [applyUpdate, if_neg hch]
    unfold resetEff startEff finishEff
    split_ifs <;> simp_all

theorem disabled_inv_step {α : Type} [DecidableEq α] {st : RState α}
    (he : st.enabled = false)
    (h1 : st.displayedText = st.target) (h2 : st.displayedLength = st.target.length)
    (h3 : st.anim = none) (h4 : st.timer = none) (e : Ev α) :
    (step st e).displayedText = (step st e).target ∧
    (step st e).displayedLength = (step st e).target.length ∧
    (step st e).anim = none ∧ (step st e).timer = none := by
  cases e with
  | upd T s now => exact applyUpdate_disabled he T s now h1 h2 h3 h4
  | tick t =>
    have hid : applyTick st t = st := by
      unfold applyTick
      rw [h3]
    simp only [step, hid]
    exact ⟨h1, h2, h3, h4⟩
  | fire =>
    have hid : applyTimeout st = st := applyTimeout_of_none h4
    simp only [step, hid]
    exact ⟨h1, h2, h3, h4⟩
  | unmount => exact ⟨h1, h2, rfl, rfl⟩

/-- C7: with `enabled = false`, after every event history the displayed text
equals the full current `targetText` (`revealedLength = len(targetText)`,
zero delay), no frame callback is pending and no timer is pending: the bypass
of lines 113-118 never schedules a tick. -/
theorem C7_disabled_bypass {α : Type} [DecidableEq α] (c : Int) (evs : List (Ev α)) :
    (run (mkState false c) evs).displayedText = (run (mkState false c) evs).target ∧
    (run (mkState false c) evs).displayedLength = (run (mkState false c) evs).target.length ∧
    (run (mkState false c) evs).anim = none ∧
    (run (mkState false c) evs).timer = none := by
  suffices h : ∀ st : RState α, st.enabled = false → st.displayedText = st.target →
      st.displayedLength = st.target.length → st.anim = none → st.timer = none →
      (run st evs).displayedText = (run st evs).target ∧
      (run st evs).displayedLength = (run st evs).target.length ∧
      (run st evs).anim = none ∧ (run st evs).timer = none by
    exact h (mkState false c) rfl rfl rfl rfl rfl
  induction evs with
  | nil => exact fun st he h1 h2 h3 h4 => ⟨h1, h2, h3, h4⟩
  | cons e evs ih =>
    intro st he h1 h2 h3 h4
    rw [run_cons]
    obtain ⟨g1, g2, g3, g4⟩ := disabled_inv_step he h1 h2 h3 h4 e
    have ge : (step st e).enabled = false := by rw [enabled_step, he]
    exact ih (step st e) ge g1 g2 g3 g4

/-- C8: teardown (unmount) cancels the pending frame callback (lines 52-58)
and React's cleanup of the force-complete effect clears the pending timer
(line 144): afterwards nothing is scheduled, and a frame callback or timer
firing against the torn-down state is a no-op — no callback observes or
mutates `RevealState` after teardown. -/
theorem C8_teardown_cancels_everything {α : Type} (st : RState α) (t : Nat) :
    (applyUnmount st).anim = none ∧
    (applyUnmount st).timer = none ∧
    applyTick (applyUnmount st) t = applyUnmount st ∧
    applyTimeout (applyUnmount st) = applyUnmount st :=
  ⟨rfl, rfl, rfl, rfl⟩

/-- C9: for every cap and every sequence of spawn events (whatever the
injected randomized attributes), the live particle count never exceeds the
cap, every live particle id is unique, and the live particles are exactly the
most recently spawned `min n cap` ones in spawn order — the earliest-created
particles are evicted first on overflow (for instance, after 20 spawns with
cap 8 the live ids are 12..19). -/
theorem C9_particle_cap_unique_oldest_evicted (cap : Nat) (attrs : List PAttrs) :
    (spawnMany cap emptyEmitter attrs).particles.length ≤ cap ∧
    ((spawnMany cap emptyEmitter attrs).particles.map Particle.id).Nodup ∧
    (spawnMany cap emptyEmitter attrs).particles.map Particle.id
      = List.range' (attrs.length - min attrs.length cap) (min attrs.length cap) := by
  obtain ⟨h1, h2⟩ := emitterInv_spawnMany cap (emitterInv_empty cap) attrs
  have hnext : (spawnMany cap emptyEmitter attrs).nextId = attrs.length := by
    rw [spawnMany_nextId]
    simp [emptyEmitter]
  refine ⟨by omega, ?_, ?_⟩
  · rw [h2]
    exact List.nodup_range' _ _
  · rw [h2, h1, hnext]

/-- C10: with animation enabled, an update supplying a non-empty `targetText`
whose length is at least `revealedLength - 10` leaves `revealedLength` and
`displayedText` exactly unchanged (the reset condition of lines 62-66 fails
and nothing else writes them); in particular, when such an update shrinks the
text below `revealedLength`, the resulting state has
`revealedLength > len(targetText)`, `progress > 1`, and a `displayedText`
that is not a prefix of the new `targetText`. -/
theorem C10_small_shrink_overshoots {α : Type} [DecidableEq α] (c : Int)
    {st : RState α} (T' : List α) (s' : Bool) (now : Nat)
    (hr : Reach (mkState true c) st)
    (hne : T' ≠ []) (hlen : (st.displayedLength : Int) - 10 ≤ (T'.length : Int)) :
    (applyUpdate st T' s' now).displayedLength = st.displayedLength ∧
    (applyUpdate st T' s' now).displayedText = st.displayedText ∧
    (T'.length < st.displayedLength →
      T'.length < (applyUpdate st T' s' now).displayedLength ∧
      1 < progressOf (applyUpdate st T' s' now) ∧
      ¬ (applyUpdate st T' s' now).displayedText <+: T') := by
  have he : st.enabled = true := enabled_of_reach hr
  have htl : st.displayedText.length = st.displayedLength :=
    tlen_of_reach (show TLen (mkState true c) from rfl) hr
  have hcond : ¬(T' ≠ st.target ∧
      (T'.length = 0 ∨ (T'.length : Int) < (st.displayedLength : Int) - 10)) := by
    rintro ⟨-, h | h⟩
    · exact hne (List.length_eq_zero.mp h)
    · omega
  have hchar := applyUpdate_displayed_char T' s' now he
  rw [if_neg hcond] at hchar
  have hdl : (applyUpdate st T' s' now).displayedLength = st.displayedLength :=
    congrArg Prod.fst hchar
  have htx : (applyUpdate st T' s' now).displayedText = st.displayedText :=
    congrArg Prod.snd hchar
  refine ⟨hdl, htx, fun hshrink => ⟨by rw [hdl]; exact hshrink, ?_, ?_⟩⟩
  · unfold progressOf
    rw [applyUpdate_target, hdl]
    have hpos : 0 < T'.length := List.length_pos.mpr hne
    rw [if_pos hpos]
    have hposq : (0 : ℚ) < (T'.length : ℚ) := by exact_mod_cast hpos
    rw [one_lt_div hposq]
    exact_mod_cast hshrink
  · rw [htx]
    intro hpre
    have hple := hpre.length_le
    omega

/-- Witness for C10: after fully revealing an 11-unit text, an update to a
5-unit text (within the slack) leaves `revealedLength = 11`, `progress > 1`,
and a stale 11-unit `displayedText`. -/
theorem C10_small_shrink_overshoots_witness :
    Reach (mkState true 150 : RState Nat)
      (run (mkState true 150)
        [Ev.upd [0, 1, 2, 3, 4, 5, 6, 7, 8, 9, 10] true 0, Ev.tick 100, Ev.tick 200]) ∧
    ([0, 1, 2, 3, 4] : List Nat) ≠ [] ∧
    ((run (mkState true 150 : RState Nat)
        [Ev.upd [0, 1, 2, 3, 4, 5, 6, 7, 8, 9, 10] true 0, Ev.tick 100,
          Ev.tick 200]).displayedLength : Int) - 10 ≤ (([0, 1, 2, 3, 4] : List Nat).length : Int) ∧
    ((applyUpdate (run (mkState true 150 : RState Nat)
          [Ev.upd [0, 1, 2, 3, 4, 5, 6, 7, 8, 9, 10] true 0, Ev.tick 100, Ev.tick 200])
        [0, 1, 2, 3, 4] true 300).displayedLength
        = (run (mkState true 150 : RState Nat)
          [Ev.upd [0, 1, 2, 3, 4, 5, 6, 7, 8, 9, 10] true 0, Ev.tick 100,
            Ev.tick 200]).displayedLength ∧
      (applyUpdate (run (mkState true 150 : RState Nat)
          [Ev.upd [0, 1, 2, 3, 4, 5, 6, 7, 8, 9, 10] true 0, Ev.tick 100, Ev.tick 200])
        [0, 1, 2, 3, 4] true 300).displayedText
        = (run (mkState true 150 : RState Nat)
          [Ev.upd [0, 1, 2, 3, 4, 5, 6, 7, 8, 9, 10] true 0, Ev.tick 100,
            Ev.tick 200]).displayedText ∧
      (([0, 1, 2, 3, 4] : List Nat).length
          < (run (mkState true 150 : RState Nat)
            [Ev.upd [0, 1, 2, 3, 4, 5, 6, 7, 8, 9, 10] true 0, Ev.tick 100,
              Ev.tick 200]).displayedLength →
        ([0, 1, 2, 3, 4] : List Nat).length
            < (applyUpdate (run (mkState true 150 : RState Nat)
                [Ev.upd [0, 1, 2, 3, 4, 5, 6, 7, 8, 9, 10] true 0, Ev.tick 100, Ev.tick 200])
              [0, 1, 2, 3, 4] true 300).displayedLength ∧
          1 < progressOf (applyUpdate (run (mkState true 150 : RState Nat)
                [Ev.upd [0, 1, 2, 3, 4, 5, 6, 7, 8, 9, 10] true 0, Ev.tick 100, Ev.tick 200])
              [0, 1, 2, 3, 4] true 300) ∧
          ¬ (applyUpdate (run (mkState true 150 : RState Nat)
                [Ev.upd [0, 1, 2, 3, 4, 5, 6, 7, 8, 9, 10] true 0, Ev.tick 100, Ev.tick 200])
              [0, 1, 2, 3, 4] true 300).displayedText <+: [0, 1, 2, 3, 4])) :=
  ⟨Reach.step (Ev.tick 200) (Reach.step (Ev.tick 100)
      (Reach.step (Ev.upd [0, 1, 2, 3, 4, 5, 6, 7, 8, 9, 10] true 0) (Reach.refl _))),
    by decide, by decide,
    C10_small_shrink_overshoots 150 [0, 1, 2, 3, 4] true 300
      (Reach.step (Ev.tick 200) (Reach.step (Ev.tick 100)
        (Reach.step (Ev.upd [0, 1, 2, 3, 4, 5, 6, 7, 8, 9, 10] true 0) (Reach.refl _))))
      (by decide) (by decide)⟩
